import Mathlib

/-!
Verification of the fhem-client library (a Promise-based HTTP client for the
FHEM home-automation gateway) against its natural-language specification.

The development shallowly embeds the request/retry/token state machine of the
client.  The repository contains two rewrites of the client:

* `src/src/fhem-client.ts` (version 0.1.4, also compiled to `lib/fhem-client.js`),
  referred to below as the v4 variant;
* the version 0.1.9 rewrite (referred to below as the v9 variant).

Where the two variants differ (the retry loop, the handling of HTTP 400, the
CSRF-token probe), both are embedded under distinct names.  Asynchronous
operations are modelled by explicit traces: each element of a trace is the
outcome of one invocation of the wrapped operation together with the value of
`Date.now()` at the moment the outcome is inspected.
-/

deriving instance DecidableEq for Except

namespace FhemClientModel

/-- Scalar result values of the client: JavaScript strings and numbers.
Numbers are modelled by integers (the integer fragment of JS numbers;
floating point is outside the model). -/
inductive Scalar where
  | num (n : Int)
  | str (s : String)
deriving DecidableEq, Repr

instance : Inhabited Scalar := ⟨.str ""⟩

/-- Embedding of the `ErrorWithCode` class: an error message together with a
machine-readable code of the form `EFHEMCL_<suffix>`. -/
structure ErrorWithCode where
  message : String
  code : String
deriving DecidableEq, Repr

/-- Observable actions of the retry orchestrator: invoking the wrapped
operation, and sleeping for a number of milliseconds. -/
inductive Ev where
  | attempt
  | sleep (ms : Int)
deriving DecidableEq, Repr

/-! ## Model of the JavaScript environment functions used by the source -/

/-- Whitespace characters trimmed by the JS `Number` conversion. -/
def jsWs (c : Char) : Bool :=
  c = ' ' || c = '\n' || c = '\t' || c = '\r'

/-- Value of a digit character. -/
def digitVal (c : Char) : Nat := c.toNat - '0'.toNat

/-- Decimal value of a digit list. -/
def digitsToNat (l : List Char) : Nat :=
  l.foldl (fun acc c => acc * 10 + digitVal c) 0

/-- Model of the JavaScript `Number(s)` conversion on strings, restricted to
the integer fragment: surrounding whitespace is trimmed, the empty (or
all-whitespace) string converts to `0`, an optionally signed digit string
converts to its value, and everything else is NaN (`none`).  Fractional,
exponent, hex and infinity literals are outside the model and are treated as
NaN. -/
def jsNumber (s : String) : Option Int :=
  let t := ((s.data.dropWhile jsWs).reverse.dropWhile jsWs).reverse
  match t with
  | [] => some 0
  | '-' :: ds =>
      if ds ≠ [] && ds.all Char.isDigit then some (-(digitsToNat ds : Int)) else none
  | '+' :: ds =>
      if ds ≠ [] && ds.all Char.isDigit then some ((digitsToNat ds : Int)) else none
  | ds =>
      if ds.all Char.isDigit then some ((digitsToNat ds : Int)) else none

/-- Embedding of `body.replace(/\n+$/, '')`: removes the maximal run of
newline characters at the end of the string. -/
def stripTrailingNewlines (s : String) : String :=
  ⟨(s.data.reverse.dropWhile (· = '\n')).reverse⟩

/-- Embedding of the 200-branch of `execCmd_` (identical in both variants):
the accumulated body has its trailing newlines removed, is converted by
`Number`, and the numeric value is resolved if the conversion is not NaN,
the remaining string otherwise.
Source: `body = body.replace(/\n+$/, ''); const number = Number(body);
resolve(isNaN(number) ? body : number);` -/
def execCmd200 (body : String) : Scalar :=
  let b := stripTrailingNewlines body
  match jsNumber b with
  | some n => .num n
  | none => .str b

/-! ## Lemmas about the newline stripping -/

theorem dropWhile_head_not (p : Char → Bool) (l : List Char) :
    ∀ x ∈ (l.dropWhile p).head?, p x = false := by
  induction l with
  | nil => simp [List.dropWhile]
  | cons a t ih =>
      intro x hx
      by_cases h : p a
      · simpa [List.dropWhile, h] using ih x (by simpa [List.dropWhile, h] using hx)
      · simp only [List.dropWhile, h] at hx
        simp only [Bool.false_eq_true, if_false, List.head?] at hx
        cases hx
        simpa using h

theorem data_stripTrailingNewlines (s : String) :
    (stripTrailingNewlines s).data = (s.data.reverse.dropWhile (· = '\n')).reverse := rfl

theorem stripTrailingNewlines_spec (s : String) :
    (stripTrailingNewlines s).data.getLast? ≠ some '\n' ∧
      ∃ k, s.data = (stripTrailingNewlines s).data ++ List.replicate k '\n' := by
  constructor
  · intro hc
    rw [data_stripTrailingNewlines, List.getLast?_reverse] at hc
    have := dropWhile_head_not (· = '\n') s.data.reverse '\n' (by rw [hc]; rfl)
    simp at this
  · refine ⟨(s.data.reverse.takeWhile (· = '\n')).length, ?_⟩
    have hsplit : s.data.reverse.takeWhile (· = '\n') ++ s.data.reverse.dropWhile (· = '\n')
        = s.data.reverse := List.takeWhile_append_dropWhile _ _
    have hrep : s.data.reverse.takeWhile (· = '\n')
        = List.replicate (s.data.reverse.takeWhile (· = '\n')).length '\n' := by
      apply List.eq_replicate_of_mem
      intro b hb
      have := List.mem_takeWhile_imp hb
      simpa using this
    have h2 : (s.data.reverse.takeWhile (· = '\n')).reverse
        = List.replicate (s.data.reverse.takeWhile (· = '\n')).length '\n' := by
      conv_lhs => rw [hrep]
      rw [List.reverse_replicate]
    rw [data_stripTrailingNewlines]
    calc s.data = s.data.reverse.reverse := by rw [List.reverse_reverse]
    _ = (s.data.reverse.takeWhile (· = '\n') ++ s.data.reverse.dropWhile (· = '\n')).reverse := by
          rw [hsplit]
    _ = (s.data.reverse.dropWhile (· = '\n')).reverse
          ++ (s.data.reverse.takeWhile (· = '\n')).reverse := by
          rw [List.reverse_append]
    _ = _ := by rw [h2]

/-! ## Retry orchestrator

The `callAndRetry` method wraps an operation; on failure it consults the
`retryIntervalFromCode` map (a JS `Map`, modelled as an association list with
unique keys, looked up with `List.lookup`) and the expiration deadline.
A trace element records the outcome of one invocation of the wrapped
operation together with `Date.now()` at the moment the outcome is inspected. -/

/-- Default contents of the `retryIntervalFromCode` map. -/
def defaultRetryIntervalFromCode : List (String × Int) :=
  [("EFHEMCL_RES", 500), ("EFHEMCL_ABRT", 500), ("EFHEMCL_TIMEDOUT", 1000),
   ("EFHEMCL_CONNREFUSED", 10000), ("EFHEMCL_NETUNREACH", 10000)]

/-- Embedding of the decision taken in the catch callback of `callAndRetry`
(textually identical in both variants): given the expiration time (`none`
when `expirationPeriod` was not positive), the retry-interval table, the
current time and the error code, return `some retryInterval` when the
operation is to be re-attempted and `none` when the error is rethrown.
Source: `if (expirationTime && this.retryIntervalFromCode.has(e.code)) {
retryInterval = this.retryIntervalFromCode.get(e.code);
if (retryInterval > 0 && Date.now() + retryInterval < expirationTime)
{ retry = true; } else throw e; } else throw e;` -/
def catchDecision (expirationTime : Option Nat) (table : List (String × Int))
    (now : Nat) (code : String) : Option Int :=
  match expirationTime with
  | none => none
  | some dl =>
      match table.lookup code with
      | none => none
      | some iv => if 0 < iv ∧ (now : Int) + iv < (dl : Int) then some iv else none

/-- One invocation outcome of the wrapped operation: the value of `Date.now()`
when the outcome is inspected, and either an error or a resolved value
(`Option V`, where `none` models resolving with `undefined`). -/
structure Attempt (V : Type) where
  now : Nat
  outcome : Except ErrorWithCode (Option V)

/-- Embedding of the v4 (version 0.1.4, `src/src/fhem-client.ts`) retry loop
body.  The `retrySt`/`iv` parameters model the `retry` flag and the
`retryInterval` variable, both declared OUTSIDE the do-while loop in this
variant, so their values persist across iterations; in particular `retry` is
never reset to `false`.  On a successful outcome the loop returns the result
only when the flag is still `false`; otherwise (`if (retry) await
sleep(retryInterval);`) it sleeps the last interval and invokes the
operation again, discarding the result.  The function returns the recorded
events together with `some` terminal outcome, or `none` when the trace is
exhausted while the loop would continue. -/
def retryLoopV4 {V : Type} (dl : Option Nat) (table : List (String × Int)) :
    Bool → Int → List (Attempt V) → List Ev × Option (Except ErrorWithCode (Option V))
  | _, _, [] => ([], none)
  | retrySt, iv, a :: rest =>
      match a.outcome with
      | .error e =>
          match catchDecision dl table a.now e.code with
          | some iv' =>
              let r := retryLoopV4 dl table true iv' rest
              (Ev.attempt :: Ev.sleep iv' :: r.1, r.2)
          | none => ([Ev.attempt], some (.error e))
      | .ok v =>
          if retrySt then
            let r := retryLoopV4 dl table true iv rest
            (Ev.attempt :: Ev.sleep iv :: r.1, r.2)
          else ([Ev.attempt], some (.ok v))

/-- Embedding of `callAndRetry` of the v4 variant: computes
`expirationTime = this.expirationPeriod > 0 ? Date.now() + this.expirationPeriod
: undefined` at entry (`t0` is `Date.now()` at call start) and runs the loop
with the flag initially `false`. -/
def callAndRetryV4 {V : Type} (t0 ep : Nat) (table : List (String × Int))
    (attempts : List (Attempt V)) : List Ev × Option (Except ErrorWithCode (Option V)) :=
  retryLoopV4 (if 0 < ep then some (t0 + ep) else none) table false 0 attempts

/-- Embedding of the v9 (version 0.1.9) retry loop, generic in the wrapped
method.  The method is modelled as a step function on the mutable client
state `S` (for `execCmd_`, the `fwcsrf` query parameter) consuming one
environment input `I` per invocation.  Per iteration the loop resets `retry`,
awaits the method and catches errors with `catchDecision`.  The awaited
expression evaluates to `undefined` both when the method itself resolved
with `undefined` (the token-refresh signal) and when the catch callback
swallowed a retryable error (the callback returns no value), and in both
cases `if (result === undefined) { noSleep = retry = true; }` sets `noSleep`,
so the subsequent `if (!noSleep) await sleep(retryInterval);` never sleeps:
no `Ev.sleep` event is ever recorded by this variant.  A successful defined
result is returned; a non-retryable error is rethrown. -/
def retryLoopV9 {S I V : Type} (step : S → I → S × Except ErrorWithCode (Option V))
    (dl : Option Nat) (table : List (String × Int)) :
    S → List (Nat × I) → List Ev × S × Option (Except ErrorWithCode V)
  | s, [] => ([], s, none)
  | s, (now, i) :: rest =>
      match step s i with
      | (s', out) =>
        match out with
        | .error e =>
            match catchDecision dl table now e.code with
            | some _ =>
                let r := retryLoopV9 step dl table s' rest
                (Ev.attempt :: r.1, r.2)
            | none => ([Ev.attempt], s', some (.error e))
        | .ok none =>
            let r := retryLoopV9 step dl table s' rest
            (Ev.attempt :: r.1, r.2)
        | .ok (some v) => ([Ev.attempt], s', some (.ok v))

/-- Embedding of `callAndRetry` of the v9 variant for a stateless operation:
the trace directly provides each invocation's outcome. -/
def callAndRetryV9 {V : Type} (t0 ep : Nat) (table : List (String × Int))
    (attempts : List (Nat × Except ErrorWithCode (Option V))) :
    List Ev × Unit × Option (Except ErrorWithCode V) :=
  retryLoopV9 (fun (_ : Unit) (o : Except ErrorWithCode (Option V)) => ((), o))
    (if 0 < ep then some (t0 + ep) else none) table () attempts

/-! ## Command executor (v9 variant) -/

/-- Server response to one command request, as the client observes it:
HTTP status code, status message, the `x-fhem-csrftoken` header (`none` when
the header is absent; Node.js delivers the header value as a string, possibly
empty) and the full response body. -/
structure HttpResponse where
  statusCode : Nat
  statusMessage : String
  csrfHeader : Option String
  body : String
deriving DecidableEq, Repr

/-- Error raised by `execCmd_` when a 400 response carries no token:
`error("execCmd: Failed to execute FHEM command '${cmd}': Obviously, this
FHEMWEB does use a CSRF token, but it doesn't send it.", 'NOTOKEN', reject)`. -/
def notokenErr (cmd : String) : ErrorWithCode :=
  ⟨"execCmd: Failed to execute FHEM command '" ++ cmd ++
    "': Obviously, this FHEMWEB does use a CSRF token, but it doesn't send it.",
    "EFHEMCL_NOTOKEN"⟩

/-- Embedding of the status-code switch of `execCmd_` in the v9 variant.
The state is the current value of the `fwcsrf` query parameter (`none` when
never set).  Status 200 resolves the parsed body; status 400 checks
`if (!res.headers['x-fhem-csrftoken'])` — the header value is falsy when the
header is absent or empty — rejecting with `EFHEMCL_NOTOKEN` in that case
and otherwise setting the `fwcsrf` parameter to the received token and
resolving with `undefined` to signal `callAndRetry` to re-invoke
immediately; 401, 302 and other statuses reject with the corresponding
errors. -/
def execCmdStepV9 (cmd : String) (st : Option String) (resp : HttpResponse) :
    Option String × Except ErrorWithCode (Option Scalar) :=
  if resp.statusCode = 200 then
    (st, .ok (some (execCmd200 resp.body)))
  else if resp.statusCode = 400 then
    match resp.csrfHeader with
    | none => (st, .error (notokenErr cmd))
    | some t =>
        if t = "" then (st, .error (notokenErr cmd))
        else (some t, .ok none)
  else if resp.statusCode = 401 then
    (st, .error ⟨"execCmd: Failed to execute FHEM command '" ++ cmd ++
      "': Wrong username or password.", "EFHEMCL_AUTH"⟩)
  else if resp.statusCode = 302 then
    (st, .error ⟨"execCmd: Failed to execute FHEM command '" ++ cmd ++
      "': Wrong FHEM 'webname'.", "EFHEMCL_WEBN"⟩)
  else
    (st, .error ⟨"execCmd: Failed to execute FHEM command '" ++ cmd ++
      "': Status: " ++ toString resp.statusCode ++ ", message: '" ++
      resp.statusMessage ++ "'.", "EFHEMCL_"⟩)

/-- The v9 retry loop applied to `execCmd_` with a fixed command: each trace
element provides `Date.now()` and the server's response to one request. -/
def execCmdLoopV9 (t0 ep : Nat) (table : List (String × Int)) (cmd : String)
    (st : Option String) (responses : List (Nat × HttpResponse)) :
    List Ev × Option String × Option (Except ErrorWithCode Scalar) :=
  retryLoopV9 (execCmdStepV9 cmd) (if 0 < ep then some (t0 + ep) else none)
    table st responses

/-! ## CSRF-token probe (v4 variant)

The v9 variant has no probe; in the v4 variant `execCmd_` begins with
`if (!url.searchParams.get('fwcsrf'))`, in which case it calls
`obtainCsrfToken()` (which resolves with the `x-fhem-csrftoken` header of a
command-less request, or with the empty string when the header is absent)
and re-enters `execCmd_`, setting the `fwcsrf` parameter first only when the
obtained token is truthy (`if (token) url.searchParams.set('fwcsrf',
token);`). -/

/-- Truthiness of `url.searchParams.get('fwcsrf')`: `URLSearchParams.get`
returns `null` when the parameter was never set, and the empty string is
also falsy. -/
def tokenParamFalsy : Option String → Bool
  | none => true
  | some s => s = ""

/-- Embedding of the token phase of the v4 `execCmd_`: `probeResult` is the
value the (successful) `obtainCsrfToken()` probe resolves with — the header
token, or `""` when the gateway sends none — assumed stable across probes.
The result counts the probe requests performed and returns `some` final
`fwcsrf` parameter when the sending phase is reached, or `none` when the
recursion fuel is exhausted beforehand. -/
def execCmdTokenPhaseV4 (probeResult : String) :
    Option String → Nat → Nat × Option (Option String)
  | _, 0 => (0, none)
  | st, fuel + 1 =>
      if tokenParamFalsy st then
        let st' := if probeResult ≠ "" then some probeResult else st
        let r := execCmdTokenPhaseV4 probeResult st' fuel
        (r.1 + 1, r.2)
      else (0, some st)

/-! ## Transport error classification (v4 variant) -/

/-- Embedding of the request 'error' listener of the v4 `getWithPromise`:
maps the Node.js error code and the `reqAborted` flag to the surfaced
`EFHEMCL_` code and the new flag value.  On `ECONNRESET` with the flag set
(the client itself aborted the request after its timeout), the flag is
cleared and the error is surfaced as `EFHEMCL_TIMEDOUT`; otherwise
`ECONNRESET` is surfaced as `EFHEMCL_CONNRESET`. -/
def classifyRequestErrorV4 (code : String) (reqAborted : Bool) : String × Bool :=
  if code = "ETIMEDOUT" then ("EFHEMCL_TIMEDOUT", reqAborted)
  else if code = "ECONNREFUSED" then ("EFHEMCL_CONNREFUSED", reqAborted)
  else if code = "ENETUNREACH" then ("EFHEMCL_NETUNREACH", reqAborted)
  else if code = "ECONNRESET" then
    if reqAborted then ("EFHEMCL_TIMEDOUT", false)
    else ("EFHEMCL_CONNRESET", reqAborted)
  else ("EFHEMCL_REQ", reqAborted)

/-- Embedding of the 'timeout' listener of the v4 `getWithPromise`: it sets
`this.reqAborted = true` and aborts the request (which then surfaces as an
`ECONNRESET` request error). -/
def timeoutHandlerV4 (_reqAborted : Bool) : Bool := true

/-! ## Function invocation layer: result decoding

`callFn` executes a Perl snippet whose output is either the literal `undef`,
a JSON array of numbers and strings, or an FHEM error message; the
then-callback (textually identical in both variants) decodes it.
`JSON.parse` is modelled by `parseJsonArray`, restricted to flat arrays of
integer literals and of strings free of quotes, backslashes, commas and
control characters; input outside this fragment (which `JSON.parse` may or
may not accept) is treated as a parse failure. -/

/-- Parses a JSON string literal without escape sequences. -/
def parseJsonString (s : String) : Option String :=
  let l := s.data
  if 2 ≤ l.length ∧ l.head? = some '"' ∧ l.getLast? = some '"' ∧
      ∀ c ∈ (l.drop 1).dropLast, c ≠ '"' ∧ c ≠ '\\' ∧ 32 ≤ c.toNat
  then some ⟨(l.drop 1).dropLast⟩ else none

/-- Digit-sequence test for JSON integers (no leading zeros). -/
def jsonDigits (ds : List Char) : Prop :=
  ds ≠ [] ∧ (∀ c ∈ ds, c.isDigit) ∧ (ds.head? = some '0' → ds.length = 1)

instance (ds : List Char) : Decidable (jsonDigits ds) := by
  unfold jsonDigits; infer_instance

/-- Parses a JSON integer literal. -/
def parseJsonNumber (s : String) : Option Int :=
  match s.data with
  | '-' :: ds => if jsonDigits ds then some (-(digitsToNat ds : Int)) else none
  | ds => if jsonDigits ds then some ((digitsToNat ds : Int)) else none

/-- Parses one array element: a number, else a string. -/
def parseJsonScalar (s : String) : Option Scalar :=
  match parseJsonNumber s with
  | some n => some (.num n)
  | none =>
      match parseJsonString s with
      | some t => some (.str t)
      | none => none

/-- Splits a character list at every comma (the behaviour of
`String.splitOn ","` on the fragment used here, where no string element
contains a comma). -/
def splitOnComma : List Char → List (List Char)
  | [] => [[]]
  | c :: t =>
      let r := splitOnComma t
      if c = ',' then [] :: r
      else
        match r with
        | h :: rs => (c :: h) :: rs
        | [] => [[c]]

/-- Applies a fallible parser to every chunk, failing if any chunk fails. -/
def mapParse (f : String → Option Scalar) : List (List Char) → Option (List Scalar)
  | [] => some []
  | a :: t =>
      match f ⟨a⟩ with
      | none => none
      | some b =>
          match mapParse f t with
          | none => none
          | some bs => some (b :: bs)

/-- Parses a flat JSON array of scalars (elements split at top-level commas). -/
def parseJsonArray (s : String) : Option (List Scalar) :=
  let l := s.data
  if l.head? = some '[' ∧ l.getLast? = some ']' ∧ 2 ≤ l.length then
    let inner := (l.drop 1).dropLast
    if inner = [] then some []
    else mapParse parseJsonScalar (splitOnComma inner)
  else none

/-- Results of a `callFn` invocation: `undefined`, a scalar, an array, or a
Map (modelled as the list of key/value pairs in insertion order; the
source's `for` loop `map.set(retArray[i], retArray[i + 1])` inserts them in
this order, merging duplicate keys, which the claims do not exercise). -/
inductive CallFnResult where
  | void
  | scalar (x : Scalar)
  | list (xs : List Scalar)
  | table (m : List (Scalar × Scalar))
deriving DecidableEq, Repr

/-- Pairs up consecutive elements, as the Map-building loop does. -/
def pairUp : List Scalar → List (Scalar × Scalar)
  | x :: y :: rest => (x, y) :: pairUp rest
  | _ => []

/-- Error raised when `JSON.parse` throws, i.e. the remote side returned an
FHEM error message instead of the expected array. -/
def cfFhemErr (name functionName ret : String) : ErrorWithCode :=
  ⟨"callFn: Failed to invoke " ++ functionName ++ "() of FHEM device " ++ name ++
    ": " ++ ret ++ ".", "EFHEMCL_CF_FHEMERR"⟩

/-- Error raised on an odd-sized list with `functionReturnsHash === true`. -/
def cfOddErr : ErrorWithCode :=
  ⟨"callFn: Cannot create a Map from an odd-sized list.", "EFHEMCL_CF_ODDLIST"⟩

/-- Embedding of the then-callback of `callFn_` decoding the remote result
`ret`: the literal `undef` resolves to `undefined`; a `JSON.parse` failure
raises `EFHEMCL_CF_FHEMERR`; a one-element array resolves to its sole
element; otherwise with `functionReturnsHash` an even-sized list becomes a
Map and an odd-sized one raises `EFHEMCL_CF_ODDLIST`; else the array is
resolved as-is. -/
def callFnThen (name functionName : String) (functionReturnsHash : Bool)
    (ret : String) : Except ErrorWithCode CallFnResult :=
  if ret = "undef" then .ok .void
  else
    match parseJsonArray ret with
    | none => .error (cfFhemErr name functionName ret)
    | some retArray =>
        if retArray.length = 1 then .ok (.scalar retArray.headI)
        else if functionReturnsHash then
          if retArray.length % 2 = 0 then .ok (.table (pairUp retArray))
          else .error cfOddErr
        else .ok (.list retArray)

/-! ## Function invocation layer: argument rendering (v4 variant)

In the v4 variant, `callFn_` renders each argument with
`args.map(arg => typeof arg === 'number' ? arg : `"${arg}"`).join(',')`;
when the joined text contains the substring `undefined`, the generated
snippet prepends `my @args=map(($_ eq 'undefined'?undef:$_),(${argsStr}))`
and passes `@args` to `CallFn`. -/

/-- Arguments of the v4 `callFn`: strings, numbers, and `undefined`
(documented to stand for Perl's `undef`). -/
inductive JsArg where
  | num (n : Int)
  | str (s : String)
  | undefArg
deriving DecidableEq, Repr

/-- Rendered text of one argument: numbers pass through the template
verbatim, everything else is double-quoted (`undefined` interpolates as the
text `undefined`). -/
def renderArgV4 : JsArg → String
  | .num n => toString n
  | .str s => "\"" ++ s ++ "\""
  | .undefArg => "\"undefined\""

/-- Model of `Array.prototype.join(',')` on the rendered texts. -/
def joinComma : List String → String
  | [] => ""
  | [s] => s
  | s :: rest => s ++ "," ++ joinComma rest

/-- The `argsStr` of the v4 `callFn_`. -/
def argsStrV4 (args : List JsArg) : String :=
  joinComma (args.map renderArgV4)

/-- Model of `String.prototype.includes`: substring occurrence test. -/
def containsSub (pat : List Char) : List Char → Bool
  | [] => pat.isPrefixOf []
  | a :: t => pat.isPrefixOf (a :: t) || containsSub pat t

/-- The `argsStr.includes('undefined')` test deciding whether the
`translateUndefined` preprocessing is emitted. -/
def triggeredV4 (args : List JsArg) : Bool :=
  containsSub "undefined".data (argsStrV4 args).data

/-- Perl values an argument position can take on the remote side. -/
inductive PerlVal where
  | undefVal
  | num (n : Int)
  | str (s : String)
deriving DecidableEq, Repr

/-- Perl value of one rendered argument as the generated list literal
evaluates it: numbers stay numbers; a double-quoted literal evaluates to its
text (assuming the text contains no characters special inside Perl double
quotes, which are outside the model); an `undefined` argument was rendered
as `"undefined"` and thus evaluates to the string `undefined`. -/
def perlElemOfArg : JsArg → PerlVal
  | .num n => .num n
  | .str s => .str s
  | .undefArg => .str "undefined"

/-- Semantics of the generated Perl preprocessing
`map(($_ eq 'undefined'?undef:$_), ...)` on one element: `eq` is string
comparison, and the decimal text of a number never equals `undefined`, so
only elements that are the string `undefined` become `undef`. -/
def translatePerl : PerlVal → PerlVal
  | .str s => if s = "undefined" then .undefVal else .str s
  | v => v

/-- Argument list finally received by the remote `CallFn`, per the v4
rendering: the Perl preprocessing is applied exactly when `argsStr` contains
the text `undefined`. -/
def effectiveArgsV4 (args : List JsArg) : List PerlVal :=
  if triggeredV4 args then (args.map perlElemOfArg).map translatePerl
  else args.map perlElemOfArg

/-- Modelled from the spec: the substitution the specification describes —
the remote no-value marker at exactly the positions where the caller passed
`undefined`, every other argument passed through with its literal value. -/
def specSubstitution : JsArg → PerlVal
  | .num n => .num n
  | .str s => .str s
  | .undefArg => .undefVal

/-! ## Helper lemmas -/

theorem strDataAppend (a b : String) : (a ++ b).data = a.data ++ b.data := by
  cases a; cases b; rfl

theorem catchDecision_of_lookup_none (dl : Option Nat) (table : List (String × Int))
    (now : Nat) (code : String) (h : table.lookup code = none) :
    catchDecision dl table now code = none := by
  cases dl with
  | none => rfl
  | some d => simp [catchDecision, h]

/-! ## Claim C6 -/

/-- C6: for every execCmd request answered with HTTP status 200, the
resolved result equals the response body with all trailing newline
characters removed (the stripped text ends in no newline and the body is the
stripped text followed by some run of newlines), converted to a number when
the entire remaining text is numeric (the `Number` conversion succeeds), and
returned as that string otherwise. -/
theorem c6_exec200_strip_and_parse (body : String) :
    (stripTrailingNewlines body).data.getLast? ≠ some '\n' ∧
    (∃ k, body.data = (stripTrailingNewlines body).data ++ List.replicate k '\n') ∧
    execCmd200 body = (match jsNumber (stripTrailingNewlines body) with
      | some n => Scalar.num n
      | none => Scalar.str (stripTrailingNewlines body)) :=
  ⟨(stripTrailingNewlines_spec body).1, (stripTrailingNewlines_spec body).2, rfl⟩

/-! ## Claim C10 -/

/-- C10: a 200 response body consisting only of newline characters (in
particular the empty body) resolves with the number 0: the stripped body is
empty and the `Number` conversion maps the empty string to 0. -/
theorem c10_newline_only_body_resolves_zero (body : String)
    (h : ∀ c ∈ body.data, c = '\n') : execCmd200 body = Scalar.num 0 := by
  have hd : (stripTrailingNewlines body).data = [] := by
    rw [data_stripTrailingNewlines]
    have hdw : body.data.reverse.dropWhile (· = '\n') = [] := by
      rw [List.dropWhile_eq_nil_iff]
      intro x hx
      simp only [decide_eq_true_eq]
      exact h x (List.mem_reverse.mp hx)
    rw [hdw]
    rfl
  have hstr : stripTrailingNewlines body = "" := by
    cases hs : stripTrailingNewlines body with
    | mk l => rw [hs] at hd; simp at hd; rw [hd]
  simp [execCmd200, hstr]
  decide

/-- C10 witness: the two-newline body resolves with the number 0. -/
theorem c10_witness : execCmd200 "\n\n" = Scalar.num 0 :=
  c10_newline_only_body_resolves_zero "\n\n" (by decide)

/-! ## Claim C7 -/

/-- C7: a transport-level `ECONNRESET` is surfaced as `EFHEMCL_TIMEDOUT`
exactly when the client itself had just aborted the request on its own
timeout (the `reqAborted` flag is set by the timeout handler); the flag is
cleared when consumed, so a subsequent reset not preceded by a self-abort is
surfaced as `EFHEMCL_CONNRESET`. -/
theorem c7_connreset_disambiguation (b : Bool) :
    ((classifyRequestErrorV4 "ECONNRESET" b).1 = "EFHEMCL_TIMEDOUT" ↔ b = true) ∧
    classifyRequestErrorV4 "ECONNRESET" (timeoutHandlerV4 b)
      = ("EFHEMCL_TIMEDOUT", false) ∧
    classifyRequestErrorV4 "ECONNRESET"
        (classifyRequestErrorV4 "ECONNRESET" (timeoutHandlerV4 b)).2
      = ("EFHEMCL_CONNRESET", false) := by
  cases b <;> decide

/-! ## Claim C8 -/

/-- C8 evaluation: in the v4 variant, when the gateway sends no token, a
successful probe resolves with the empty string, the `fwcsrf` parameter is
not set, and the re-entered `execCmd_` probes again: with `n` re-entries the
client performs `n` probe requests and never reaches the sending phase
(first conjunct) — the absent token is not remembered.  By contrast a
non-empty probe result is stored and reused: the first call probes once and
then sends, and every later call (parameter already set) sends without any
probe (second and third conjuncts). -/
theorem c8_absent_token_reprobed :
    (∀ n, execCmdTokenPhaseV4 "" none n = (n, none)) ∧
    execCmdTokenPhaseV4 "tok" none 2 = (1, some (some "tok")) ∧
    (∀ n, execCmdTokenPhaseV4 "tok" (some "tok") (n + 1) = (0, some (some "tok"))) := by
  refine ⟨?_, by decide, ?_⟩
  · intro n
    induction n with
    | zero => rfl
    | succ k ih => simp [execCmdTokenPhaseV4, tokenParamFalsy, ih]
  · intro n
    rfl

/-! ## Claim C4 -/

/-- C4: a `callFn` invocation whose remote result decodes to a one-element
array resolves with the sole scalar element — never a Map and never an
array — for both values of the `functionReturnsHash` flag. -/
theorem c4_singleton_unwrapped (name functionName : String) (frh : Bool)
    (ret : String) (x : Scalar) (h : parseJsonArray ret = some [x]) :
    callFnThen name functionName frh ret = .ok (.scalar x) := by
  have hne : ret ≠ "undef" := by
    intro he
    rw [he, show parseJsonArray "undef" = none from by decide] at h
    exact Option.noConfusion h
  unfold callFnThen
  rw [if_neg hne, h]
  simp

/-- C4 witness: the remote result `[42]` resolves with the number 42 even
with `functionReturnsHash = true`. -/
theorem c4_witness :
    parseJsonArray "[42]" = some [Scalar.num 42] ∧
    callFnThen "lamp" "getState" true "[42]" = .ok (.scalar (.num 42)) :=
  ⟨by decide, c4_singleton_unwrapped "lamp" "getState" true "[42]" (.num 42) (by decide)⟩

/-! ## Claim C5 -/

/-- C5: a `callFn` invocation with `functionReturnsHash = true` whose remote
result decodes to an odd-length array longer than one rejects with
`EFHEMCL_CF_ODDLIST`, and that code has no entry in the default
retry-interval table, so the retry decision is negative for every
expiration time and clock value. -/
theorem c5_odd_list_not_retried (name functionName ret : String) (l : List Scalar)
    (hp : parseJsonArray ret = some l) (hodd : l.length % 2 = 1)
    (hgt : 1 < l.length) :
    callFnThen name functionName true ret = .error cfOddErr ∧
    cfOddErr.code = "EFHEMCL_CF_ODDLIST" ∧
    ∀ (et : Option Nat) (now : Nat),
      catchDecision et defaultRetryIntervalFromCode now cfOddErr.code = none := by
  refine ⟨?_, rfl, ?_⟩
  · have hne : ret ≠ "undef" := by
      intro he
      rw [he, show parseJsonArray "undef" = none from by decide] at hp
      exact Option.noConfusion hp
    have hlen1 : ¬ l.length = 1 := by omega
    have hlen2 : ¬ l.length % 2 = 0 := by omega
    unfold callFnThen
    rw [if_neg hne, hp]
    simp [hlen1, hlen2]
  · intro et now
    exact catchDecision_of_lookup_none et _ now _ (by decide)

/-- C5 witness: the remote result `[1,2,3]` with `functionReturnsHash = true`
rejects with `EFHEMCL_CF_ODDLIST` and the retry decision is negative. -/
theorem c5_witness :
    callFnThen "lamp" "getState" true "[1,2,3]" = .error cfOddErr ∧
    catchDecision (some 99999) defaultRetryIntervalFromCode 0 cfOddErr.code = none := by
  have h := c5_odd_list_not_retried "lamp" "getState" "[1,2,3]"
    [.num 1, .num 2, .num 3] (by decide) (by decide) (by decide)
  exact ⟨h.1, h.2.2 (some 99999) 0⟩

/-! ## Claim C1 -/

/-- C1: in the v4 retry loop, an invocation that fails with error `e` is
re-attempted after sleeping the configured interval precisely when the
expiration period is positive, the code has a table entry, that interval is
positive, and the current time plus the interval stays below the deadline
`t0 + ep`; in every other case the error is re-raised as the terminal
outcome.  The statement covers every invocation (arbitrary flag state
`retrySt`/`iv0` of the loop; the initial invocation is
`callAndRetryV4 = retryLoopV4 … false 0`). -/
theorem c1_retry_iff_conditions {V : Type} (t0 ep now : Nat)
    (table : List (String × Int)) (e : ErrorWithCode) (retrySt : Bool) (iv0 : Int)
    (rest : List (Attempt V)) :
    (∀ iv : Int, 0 < ep → table.lookup e.code = some iv → 0 < iv →
        (now : Int) + iv < ((t0 + ep : Nat) : Int) →
        retryLoopV4 (if 0 < ep then some (t0 + ep) else none) table retrySt iv0
            (⟨now, .error e⟩ :: rest)
          = (Ev.attempt :: Ev.sleep iv ::
              (retryLoopV4 (some (t0 + ep)) table true iv rest).1,
             (retryLoopV4 (some (t0 + ep)) table true iv rest).2)) ∧
    (¬ (0 < ep ∧ ∃ iv : Int, table.lookup e.code = some iv ∧ 0 < iv ∧
          (now : Int) + iv < ((t0 + ep : Nat) : Int)) →
        retryLoopV4 (if 0 < ep then some (t0 + ep) else none) table retrySt iv0
            (⟨now, .error e⟩ :: rest)
          = ([Ev.attempt], some (.error e))) := by
  constructor
  · intro iv hep hlook hpos hlt
    rw [if_pos hep]
    have hcd : catchDecision (some (t0 + ep)) table now e.code = some iv := by
      simp [catchDecision, hlook, hpos]
      omega
    simp [retryLoopV4, hcd]
  · intro hn
    by_cases hep : 0 < ep
    · rw [if_pos hep]
      have hcd : catchDecision (some (t0 + ep)) table now e.code = none := by
        unfold catchDecision
        cases hlook : table.lookup e.code with
        | none => rfl
        | some iv =>
            simp only [hlook]
            rw [if_neg]
            intro hc
            exact hn ⟨hep, iv, hlook, hc.1, hc.2⟩
      simp [retryLoopV4, hcd]
    · rw [if_neg hep]
      have hcd : catchDecision none table now e.code = none := rfl
      simp [retryLoopV4, hcd]

/-- C1 witness: with expiration period 5000 ms and the default table, a
first attempt failing with `EFHEMCL_TIMEDOUT` at time 1000 is retried after
sleeping the configured 1000 ms. -/
theorem c1_witness :
    callAndRetryV4 0 5000 defaultRetryIntervalFromCode
        [(⟨1000, .error ⟨"timed out", "EFHEMCL_TIMEDOUT"⟩⟩ : Attempt Scalar)]
      = ([Ev.attempt, Ev.sleep 1000], none) := by
  have h := (c1_retry_iff_conditions (V := Scalar) 0 5000 1000
    defaultRetryIntervalFromCode ⟨"timed out", "EFHEMCL_TIMEDOUT"⟩ false 0 []).1
    1000 (by decide) (by decide) (by decide) (by decide)
  unfold callAndRetryV4
  rw [h]
  decide

/-! ## Claim C2 -/

/-- An attempt outcome that the v9 loop follows by a re-invocation: either a
retryable error (positive retry decision) or the `undefined` immediate-retry
signal. -/
def retriedV9 {V : Type} (dl : Option Nat) (table : List (String × Int))
    (p : Nat × Except ErrorWithCode (Option V)) : Prop :=
  match p.2 with
  | .error e => catchDecision dl table p.1 e.code ≠ none
  | .ok none => True
  | .ok (some _) => False

/-- C2: in the v9 retry loop, whenever an attempt resolves successfully with
a defined result — including an attempt following any number of re-attempted
outcomes — the loop terminates with exactly that result, recording one
attempt event per invocation and touching none of the remaining trace (no
further invocations and no sleeps). -/
theorem c2_success_terminates {V : Type} (t0 ep : Nat) (table : List (String × Int))
    (pre : List (Nat × Except ErrorWithCode (Option V))) (now : Nat) (v : V)
    (rest : List (Nat × Except ErrorWithCode (Option V)))
    (h : ∀ p ∈ pre, retriedV9 (if 0 < ep then some (t0 + ep) else none) table p) :
    callAndRetryV9 t0 ep table (pre ++ (now, .ok (some v)) :: rest)
      = (pre.map (fun _ => Ev.attempt) ++ [Ev.attempt], (), some (.ok v)) := by
  unfold callAndRetryV9
  induction pre with
  | nil => simp [retryLoopV9]
  | cons p t ih =>
      have hp := h p (by simp)
      have ht : ∀ q ∈ t, retriedV9 (if 0 < ep then some (t0 + ep) else none) table q :=
        fun q hq => h q (by simp [hq])
      have ihh := ih ht
      obtain ⟨pn, po⟩ := p
      cases po with
      | error e =>
          have hcd : catchDecision (if 0 < ep then some (t0 + ep) else none)
              table pn e.code ≠ none := hp
          cases hc : catchDecision (if 0 < ep then some (t0 + ep) else none)
              table pn e.code with
          | none => exact absurd hc hcd
          | some iv => simp [retryLoopV9, hc, ihh]
      | ok o =>
          cases o with
          | none => simp [retryLoopV9, ihh]
          | some w => exact absurd hp (by simp [retriedV9])

/-- C2 witness: after one retryable `EFHEMCL_TIMEDOUT` failure, a successful
attempt resolving the number 7 terminates the loop with exactly that result
and no further events. -/
theorem c2_witness :
    callAndRetryV9 0 5000 defaultRetryIntervalFromCode
        [(0, .error ⟨"timed out", "EFHEMCL_TIMEDOUT"⟩),
         (1000, .ok (some (Scalar.num 7))),
         (1200, .ok (some (Scalar.num 8)))]
      = ([Ev.attempt, Ev.attempt], (), some (.ok (Scalar.num 7))) := by
  have h := c2_success_terminates (V := Scalar) 0 5000 defaultRetryIntervalFromCode
    [(0, .error ⟨"timed out", "EFHEMCL_TIMEDOUT"⟩)] 1000 (Scalar.num 7)
    [(1200, .ok (some (Scalar.num 8)))] ?_
  · simpa using h
  · intro p hp
    simp at hp
    rw [hp]
    unfold retriedV9
    decide

/-! ## Claim C3 -/

/-- C3 counterexample: a 400 response that carries the `x-fhem-csrftoken`
header with an empty value is rejected with `EFHEMCL_NOTOKEN` rather than
adopted-and-reissued: `execCmd_` tests the truthiness of the header value,
not the presence of the header, so the claim's case split on header presence
fails at this input. -/
theorem c3_counterexample :
    (execCmdStepV9 "cmd" (some "old") ⟨400, "Bad Request", some "", ""⟩).2
        = Except.error (notokenErr "cmd") ∧
    (execCmdStepV9 "cmd" (some "old") ⟨400, "Bad Request", some "", ""⟩).2
        ≠ Except.ok none := by
  decide

/-- C3 amended: on a 400 response carrying a NONEMPTY `x-fhem-csrftoken`
header value, the client adopts the new token and reissues the same command
immediately (the loop continues on the remaining trace with the token
parameter updated, surfacing no error); when the header is absent or empty,
the call rejects with `EFHEMCL_NOTOKEN` after this single attempt and is
never retried under the default retry-interval table, whatever the
expiration period and the rest of the trace. -/
theorem c3_amended_400_handling (cmd : String) (st : Option String)
    (t0 ep now : Nat) (resp : HttpResponse) (rest : List (Nat × HttpResponse))
    (h400 : resp.statusCode = 400) :
    (∀ t, resp.csrfHeader = some t → t ≠ "" →
        execCmdLoopV9 t0 ep defaultRetryIntervalFromCode cmd st ((now, resp) :: rest)
          = (Ev.attempt ::
              (execCmdLoopV9 t0 ep defaultRetryIntervalFromCode cmd (some t) rest).1,
             (execCmdLoopV9 t0 ep defaultRetryIntervalFromCode cmd (some t) rest).2)) ∧
    ((resp.csrfHeader = none ∨ resp.csrfHeader = some "") →
        execCmdLoopV9 t0 ep defaultRetryIntervalFromCode cmd st ((now, resp) :: rest)
          = ([Ev.attempt], st, some (.error (notokenErr cmd)))) := by
  have hstep : ∀ h, resp.csrfHeader = h →
      execCmdStepV9 cmd st resp = (match h with
        | none => (st, .error (notokenErr cmd))
        | some t => if t = "" then (st, .error (notokenErr cmd)) else (some t, .ok none)) := by
    intro h hh
    unfold execCmdStepV9
    rw [h400, hh]
    simp
  have hl : List.lookup "EFHEMCL_NOTOKEN" defaultRetryIntervalFromCode = none := by
    decide
  have hcd : ∀ dl, catchDecision dl defaultRetryIntervalFromCode now
      (notokenErr cmd).code = none := fun dl =>
    catchDecision_of_lookup_none dl _ now _ hl
  constructor
  · intro t hh hne
    have hs := hstep (some t) hh
    simp only [hne, if_false, reduceCtorEq] at hs
    unfold execCmdLoopV9
    simp only [retryLoopV9, hs]
  · intro hh
    cases hh with
    | inl habs =>
        have hs := hstep none habs
        unfold execCmdLoopV9
        simp only [retryLoopV9, hs]
        simp [hcd]
    | inr hempty =>
        have hs := hstep (some "") hempty
        simp only [if_pos rfl] at hs
        unfold execCmdLoopV9
        simp only [retryLoopV9, hs]
        simp [hcd]

/-- C3 witness: a 400 response with a fresh token followed by a 200 response
makes the command succeed with no surfaced error, the new token adopted. -/
theorem c3_witness :
    execCmdLoopV9 0 0 defaultRetryIntervalFromCode "set lamp on" none
        [(0, ⟨400, "Bad Request", some "tok9", ""⟩),
         (5, ⟨200, "OK", some "tok9", "ok\n"⟩)]
      = ([Ev.attempt, Ev.attempt], some "tok9", some (.ok (Scalar.str "ok"))) := by
  have h := (c3_amended_400_handling "set lamp on" none 0 0 0
    ⟨400, "Bad Request", some "tok9", ""⟩
    [(5, ⟨200, "OK", some "tok9", "ok\n"⟩)] rfl).1 "tok9" rfl (by decide)
  rw [h]
  decide

/-! ## Claim C9 -/

theorem isPrefixOf_append_mono (pat l r : List Char) (h : pat.isPrefixOf l = true) :
    pat.isPrefixOf (l ++ r) = true := by
  induction pat generalizing l with
  | nil => simp [List.isPrefixOf]
  | cons p ps ih =>
      cases l with
      | nil => simp [List.isPrefixOf] at h
      | cons a t =>
          simp only [List.isPrefixOf, Bool.and_eq_true] at h
          simp only [List.cons_append, List.isPrefixOf, Bool.and_eq_true]
          exact ⟨h.1, ih t h.2⟩

theorem containsSub_of_isPrefixOf (pat l : List Char) (h : pat.isPrefixOf l = true) :
    containsSub pat l = true := by
  cases l with
  | nil => simpa [containsSub] using h
  | cons a t => simp [containsSub, h]

theorem containsSub_cons (pat : List Char) (a : Char) (t : List Char)
    (h : containsSub pat t = true) : containsSub pat (a :: t) = true := by
  simp [containsSub, h]

theorem containsSub_append_left (pat l₁ l₂ : List Char)
    (h : containsSub pat l₂ = true) : containsSub pat (l₁ ++ l₂) = true := by
  induction l₁ with
  | nil => simpa using h
  | cons a t ih => exact containsSub_cons pat a (t ++ l₂) ih

theorem containsSub_append_right (pat l₁ l₂ : List Char)
    (h : containsSub pat l₁ = true) : containsSub pat (l₁ ++ l₂) = true := by
  induction l₁ with
  | nil =>
      have hp : pat = [] := by
        cases pat with
        | nil => rfl
        | cons p ps => simp [containsSub, List.isPrefixOf] at h
      subst hp
      cases l₂ with
      | nil => simp [containsSub, List.isPrefixOf]
      | cons b u => simp [containsSub, List.isPrefixOf]
  | cons a t ih =>
      simp only [containsSub, Bool.or_eq_true] at h
      cases h with
      | inl hpre =>
          have := isPrefixOf_append_mono pat (a :: t) l₂ hpre
          exact containsSub_of_isPrefixOf pat ((a :: t) ++ l₂) this
      | inr hsub => exact containsSub_cons pat a (t ++ l₂) (ih hsub)

/-- An `undefined` argument renders as the text `"undefined"`, so its
presence makes `argsStr.includes('undefined')` true and emits the Perl
preprocessing. -/
theorem undef_mem_triggers (args : List JsArg) (h : JsArg.undefArg ∈ args) :
    triggeredV4 args = true := by
  unfold triggeredV4 argsStrV4
  induction args with
  | nil => simp at h
  | cons a t ih =>
      rw [List.mem_cons] at h
      cases t with
      | nil =>
          have ha : a = JsArg.undefArg := by
            cases h with
            | inl h1 => exact h1.symm
            | inr h2 => simp at h2
          subst ha
          decide
      | cons b u =>
          simp only [List.map_cons, joinComma]
          rw [strDataAppend]
          cases h with
          | inl ha =>
              subst ha
              apply containsSub_append_right
              rw [strDataAppend]
              apply containsSub_append_right
              decide
          | inr hmem =>
              apply containsSub_append_left
              exact ih hmem

/-- C9 counterexample: a caller-supplied STRING argument whose text is
exactly `undefined` renders identically to an `undefined` argument, so the
generated preprocessing also substitutes the no-value marker for it — the
claim's requirement that such an argument pass through unaffected fails. -/
theorem c9_counterexample :
    effectiveArgsV4 [JsArg.str "undefined"] = [PerlVal.undefVal] ∧
    List.map specSubstitution [JsArg.str "undefined"] = [PerlVal.str "undefined"] ∧
    effectiveArgsV4 [JsArg.str "undefined"]
      ≠ List.map specSubstitution [JsArg.str "undefined"] := by
  decide

/-- C9 amended: provided no string argument's text is exactly `undefined`,
the rendered snippet substitutes the remote no-value marker for exactly the
positions where the caller passed `undefined`, and every other argument —
including strings merely containing the word `undefined` — reaches the
remote function with its literal value unaffected. -/
theorem c9_amended_substitution (args : List JsArg)
    (h : ∀ s, JsArg.str s ∈ args → s ≠ "undefined") :
    effectiveArgsV4 args = args.map specSubstitution := by
  unfold effectiveArgsV4
  by_cases ht : triggeredV4 args = true
  · rw [if_pos ht, List.map_map]
    apply List.map_congr_left
    intro a ha
    cases a with
    | num n => rfl
    | undefArg => rfl
    | str s =>
        have hs := h s ha
        simp [perlElemOfArg, translatePerl, specSubstitution, hs]
  · rw [if_neg ht]
    apply List.map_congr_left
    intro a ha
    cases a with
    | num n => rfl
    | str s => rfl
    | undefArg => exact absurd (undef_mem_triggers args ha) ht

/-- C9 witness: with arguments `(1, undefined, "contains undefined text")`,
only the middle position becomes `undef`; the string containing the word is
unaffected. -/
theorem c9_witness :
    effectiveArgsV4 [JsArg.num 1, JsArg.undefArg, JsArg.str "contains undefined text"]
      = [PerlVal.num 1, PerlVal.undefVal, PerlVal.str "contains undefined text"] := by
  have h := c9_amended_substitution
    [JsArg.num 1, JsArg.undefArg, JsArg.str "contains undefined text"] ?_
  · simpa using h
  · intro s hs
    simp at hs
    rw [hs]
    decide

end FhemClientModel
